import Mathlib

/-!
A shallow embedding of `src/SlackScheduler.py` (GeorgeAlex-M/SlackScheduler).

Strings of the Python source are modelled as `List Char` (ASCII semantics for
the character classes of `re` and `strptime`, which is exact on every string
the program and its configuration use).  Python functions that can raise are
modelled with `Option`; the two scheduling passes, which mutate the global
`schedule` registry while they iterate and can die mid-loop on an uncaught
exception, are modelled as functions returning the list of registered jobs,
the list of log lines printed, and a flag recording whether an exception
escaped the pass.
-/

namespace SlackSched

/-- Shorthand: the character list of a string literal. -/
def lc (s : String) : List Char := s.toList

/-- The apostrophe character, used by the source's f-string log formats. -/
def apos : Char := Char.ofNat 39

/-- Python `\s` (ASCII): the whitespace class used by `str.strip`, `str.split()`
and the `\s+` that `strptime` compiles a format-string blank into. -/
def isSpaceC (c : Char) : Bool :=
  c == ' ' || c == '\t' || c == '\n' || c == '\r' || c == '\x0b' || c == '\x0c'

/-- Python `\w` (ASCII): word characters, as used by the mention regex in
`SlackScheduler.send_message` (line 369). -/
def isWordC (c : Char) : Bool := c.isAlphanum || c == '_'

/-- Numeric value of a digit run, as Python `int()` reads the digits matched
by `strptime`. -/
def natOfDigits (ds : List Char) : Nat :=
  ds.foldl (fun a c => 10 * a + (c.toNat - 48)) 0

/-- The digit character of `n % 10`. -/
def digitC (n : Nat) : Char := Char.ofNat (48 + n % 10)

/-- Two-digit zero-padded decimal rendering, as `strftime` pads `%H`, `%I`,
`%M` for values below 100. -/
def pad2 (n : Nat) : List Char := [digitC (n / 10), digitC n]

/-! ## Time codec

`SlackScheduler.convert_to_24h_format` (line 293) is
`datetime.datetime.strptime(time_str, "%I:%M %p").strftime("%H:%M")`;
`SlackScheduler.current_time_str` (line 304) renders a time with
`strftime("%I:%M %p")`.  `parse12` models the strptime pattern for
`"%I:%M %p"`: hour `1[0-2]|0[1-9]|[1-9]`, literal `:`, minute
`[0-5]\d|\d`, one-or-more whitespace, case-insensitive `AM|PM`, with the
whole input consumed; a failed match raises `ValueError`, modelled as
`none`. -/

/-- strptime `"%I:%M %p"`: parse a 12-hour clock string into
(hour 1..12, minute 0..59, isPM). -/
def parse12 (cs : List Char) : Option (Nat × Nat × Bool) :=
  match cs.span Char.isDigit with
  | (hds, ':' :: rest2) =>
    match rest2.span Char.isDigit with
    | (mds, rest3) =>
      match rest3.span isSpaceC with
      | (sps, [a, b]) =>
        let h := natOfDigits hds
        let m := natOfDigits mds
        if hds.length = 0 ∨ 2 < hds.length ∨ h < 1 ∨ 12 < h ∨
           mds.length = 0 ∨ 2 < mds.length ∨ 59 < m ∨ sps.length = 0 then
          none
        else if (a = 'A' ∨ a = 'a') ∧ (b = 'M' ∨ b = 'm') then
          some (h, m, false)
        else if (a = 'P' ∨ a = 'p') ∧ (b = 'M' ∨ b = 'm') then
          some (h, m, true)
        else none
      | _ => none
  | _ => none

/-- The minute-of-day a parsed 12-hour value denotes (strptime's
`%I`/`%p` combination rule: 12 AM is hour 0, 12 PM is hour 12). -/
def minuteOfDay (h m : Nat) (pm : Bool) : Nat :=
  (h % 12 + if pm then 12 else 0) * 60 + m

/-- The spec's `toMinuteOfDay`: parse a 12-hour string to a canonical
minute-of-day value, `none` on a malformed string. -/
def toMinuteOfDay (cs : List Char) : Option Nat :=
  (parse12 cs).map fun hmp => minuteOfDay hmp.1 hmp.2.1 hmp.2.2

/-- strftime `"%H:%M"` on a minute-of-day value. -/
def format24 (t : Nat) : List Char := pad2 (t / 60) ++ ':' :: pad2 (t % 60)

/-- `SlackScheduler.convert_to_24h_format` (line 293): 12-hour string to
24-hour string, `none` modelling the `ValueError` strptime raises on a
malformed string. -/
def convert_to_24h_format (time_str : List Char) : Option (List Char) :=
  (toMinuteOfDay time_str).map format24

/-- strftime `"%I:%M %p"` on a minute-of-day value: the 12-hour display
format `SlackScheduler.current_time_str` (line 304) uses, applied to an
arbitrary minute of the day (the spec's `toDisplayString`). -/
def display12 (t : Nat) : List Char :=
  let h := t / 60
  let h12 := if h % 12 = 0 then 12 else h % 12
  pad2 h12 ++ ':' :: pad2 (t % 60) ++ ' ' :: (if 12 ≤ h then lc "PM" else lc "AM")

/-- The normalized form of a valid 12-hour string with components
(h, m, meridiem): two-digit zero-padded hour and minute, single blank,
upper-case meridiem. -/
def normalize12 (h m : Nat) (pm : Bool) : List Char :=
  pad2 h ++ ':' :: pad2 m ++ ' ' :: (if pm then lc "PM" else lc "AM")

example : convert_to_24h_format (lc "02:00 PM") = some (lc "14:00") := by decide
example : convert_to_24h_format (lc "9:5 AM") = some (lc "09:05") := by decide
example : convert_to_24h_format (lc "09:30am") = none := by decide
example : convert_to_24h_format (lc "13:00 PM") = none := by decide
example : convert_to_24h_format (lc "00:30 AM") = none := by decide
example : convert_to_24h_format (lc "12:00 AM") = some (lc "00:00") := by decide
example : convert_to_24h_format (lc "12:00 PM") = some (lc "12:00") := by decide
example : convert_to_24h_format (lc "09:30 AM ") = none := by decide
example : display12 0 = lc "12:00 AM" := by decide
example : display12 720 = lc "12:00 PM" := by decide

/-! ## Command interpreter

`CommandHandler.handle_command` (lines 92-130): strip the line, split on a
single blank, pop the command name, scan the remaining tokens left to right
(`-C` followed by another token binds that token as the channel and both are
dropped from the message; every other token is appended to the message),
rejoin the message with single blanks and strip it; `help` is dispatched
before the scan result is used; for `/w` a missing or falsy channel falls
back to the command's configured `default_channel`, and sending happens only
when both the channel and the message text are truthy. -/

/-- Python `str.split(" ")`: split on every single blank, keeping empty
pieces. -/
def splitSp (cs : List Char) : List (List Char) :=
  cs.foldr
    (fun c acc =>
      match acc with
      | a :: as => if c = ' ' then [] :: a :: as else (c :: a) :: as
      | [] => [[c]])
    [[]]

/-- Python `str.strip()`: drop leading and trailing whitespace. -/
def trimC (cs : List Char) : List Char :=
  ((cs.dropWhile isSpaceC).reverse.dropWhile isSpaceC).reverse

/-- Python `" ".join(tokens)`. -/
def joinSp : List (List Char) → List Char
  | [] => []
  | [x] => x
  | x :: xs => x ++ ' ' :: joinSp xs

/-- The token scan of `handle_command` (lines 110-117): walk the components;
`-C` with a following component consumes both and binds the follower as the
channel id; any other component (including a trailing lone `-C`) is appended
to the message. -/
def parseSwitches : List (List Char) → Option (List Char) → List (List Char) →
    Option (List Char) × List (List Char)
  | [], chan, msg => (chan, msg)
  | [t], chan, msg => (chan, msg ++ [t])
  | t :: u :: rest, chan, msg =>
    if t = lc "-C" then parseSwitches rest (some u) msg
    else parseSwitches (u :: rest) chan (msg ++ [t])

/-- Python truthiness of the optional channel id: `None` and the empty
string are falsy. -/
def truthyC : Option (List Char) → Bool
  | none => false
  | some s => !s.isEmpty

/-- The observable outcome of one `handle_command` call. -/
inductive CmdAction where
  /-- `send_to_channel(channel_id, message_text)` was invoked. -/
  | sent (channel message : List Char) : CmdAction
  /-- The "You must specify a channel (-C channel_id) and a message to
  send." error was printed; nothing was sent. -/
  | usageError : CmdAction
  /-- The command-list help was printed. -/
  | helpList : CmdAction
  /-- Help for one command was printed. -/
  | helpFor (c : List Char) : CmdAction
  /-- The "Unrecognized or unsupported command" error was printed. -/
  | unknown (c : List Char) : CmdAction
deriving DecidableEq, Repr

/-- The `/w` branch of `handle_command` (lines 121-128), applied to the
components after the command name, given the command's configured
`default_channel` (`config["commands"].get(cmd, {}).get("default_channel",
None)`). -/
def wCommand (defaultChannel : Option (List Char)) (components : List (List Char)) :
    CmdAction :=
  let r := parseSwitches components none []
  let messageText := trimC (joinSp r.2)
  let channelId := if truthyC r.1 then r.1 else defaultChannel
  if truthyC channelId && !messageText.isEmpty then
    .sent (channelId.getD []) messageText
  else .usageError

/-- `CommandHandler.handle_command` (lines 92-130), parameterised by the
per-command default-channel lookup the config provides. -/
def handle_command (defaultOf : List Char → Option (List Char)) (command : List Char) :
    CmdAction :=
  match splitSp (trimC command) with
  | [] => .usageError
  | cmd :: components =>
    if cmd = lc "help" then
      match components with
      | [] => .helpList
      | h :: _ => .helpFor h
    else if cmd = lc "/w" then wCommand (defaultOf cmd) components
    else .unknown cmd

example :
    handle_command (fun _ => some (lc "C043NCYSH1V"))
      (lc "/w -C C123 Good luck @george!") =
      .sent (lc "C123") (lc "Good luck @george!") := by decide

example :
    handle_command (fun _ => some (lc "C043NCYSH1V"))
      (lc "/w Good luck @george!") =
      .sent (lc "C043NCYSH1V") (lc "Good luck @george!") := by decide

example :
    handle_command (fun _ => some (lc "C043NCYSH1V")) (lc "/w hello -C") =
      .sent (lc "C043NCYSH1V") (lc "hello -C") := by decide

example :
    handle_command (fun _ => some (lc "C043NCYSH1V")) (lc "/w -C C123") =
      .usageError := by decide

/-! ## Delivery adapter

`SlackScheduler.send_message` (lines 367-391):
`re.findall(r'@(\w+)(?=\s|\.|!|\/|\W)', message)` collects the handles; for
each handle that the directory resolves, every occurrence of `@handle` is
replaced by `<@user_id>`; an unresolved handle is left literal and a
"User not found" line is logged; finally every `@here` is replaced by
`<!here>`.  The lookahead alternatives of the regex are all subsumed by
`\W`, so a handle matches exactly when its maximal word-character run is
non-empty and at least one (necessarily non-word) character follows it;
the regex scan resumes after the matched `@handle` (the lookahead consumes
nothing). -/

/-- One logged line: `log_message(action, text)` (line 318). -/
structure LogEntry where
  action : List Char
  text : List Char
deriving DecidableEq, Repr

/-- Fuelled scan for `re.findall(r'@(\w+)(?=\s|\.|!|\/|\W)', s)`. -/
def findMentionsF : Nat → List Char → List (List Char)
  | 0, _ => []
  | _ + 1, [] => []
  | n + 1, c :: cs =>
    if c = '@' then
      match cs.span isWordC with
      | (run, rest) =>
        if !run.isEmpty && !rest.isEmpty then run :: findMentionsF n rest
        else findMentionsF n cs
    else findMentionsF n cs

/-- `re.findall(r'@(\w+)(?=\s|\.|!|\/|\W)', s)`: the handles of the
mentions in `s` (group 1 of each match), in scan order, duplicates kept. -/
def findMentions (cs : List Char) : List (List Char) :=
  findMentionsF cs.length cs

/-- Fuelled Python `str.replace`: leftmost non-overlapping occurrences of
`pat`, scanning resuming after the inserted replacement. -/
def replaceAllF (pat repl : List Char) : Nat → List Char → List Char
  | 0, cs => cs
  | _ + 1, [] => []
  | n + 1, c :: cs =>
    if pat.isPrefixOf (c :: cs) then
      repl ++ replaceAllF pat repl n (List.drop (pat.length - 1) cs)
    else c :: replaceAllF pat repl n cs

/-- Python `str.replace(pat, repl)` for a non-empty `pat`. -/
def replaceAll (pat repl cs : List Char) : List Char :=
  replaceAllF pat repl cs.length cs

/-- The per-handle resolution step of `send_message` (lines 370-377): on a
directory hit replace every `@handle` by `<@user_id>`, on a miss log the
"User not found" line and leave the text untouched. -/
def resolveStep (directory : List Char → Option (List Char))
    (acc : List Char × List LogEntry) (username : List Char) :
    List Char × List LogEntry :=
  match directory username with
  | some userId =>
    (replaceAll ('@' :: username) ('<' :: '@' :: userId ++ ['>']) acc.1, acc.2)
  | none =>
    (acc.1,
     acc.2 ++ [⟨lc "User not found",
       lc "Username @" ++ username ++ lc " could not be resolved to a user ID."⟩])

/-- `SlackScheduler.send_message` (lines 367-391) up to the Notifier call:
returns the formatted message finally posted and the "User not found" log
lines, given the directory (`get_user_id`, lines 333-348). -/
def send_message (directory : List Char → Option (List Char))
    (message : List Char) : List Char × List LogEntry :=
  let r := (findMentions message).foldl (resolveStep directory) (message, [])
  (replaceAll (lc "@here") (lc "<!here>") r.1, r.2)

/-- A directory resolving exactly the handle `alice` to `U1`. -/
def dirAlice : List Char → Option (List Char) :=
  fun u => if u = lc "alice" then some (lc "U1") else none

example : findMentions (lc "hi @alice") = [] := by decide
example : findMentions (lc "hi @alice!") = [lc "alice"] := by decide
example : findMentions (lc "ping @here") = [] := by decide
example : findMentions (lc "go @here now") = [lc "here"] := by decide
example :
    send_message dirAlice (lc "hi @alice!") = (lc "hi <@U1>!", []) := by decide
example :
    send_message dirAlice (lc "hi @alice") = (lc "hi @alice", []) := by decide
example :
    send_message dirAlice (lc "ping @here") = (lc "ping <!here>", []) := by decide

/-! ## Scheduling passes

`SlackScheduler.schedule_shift_reminders` (lines 429-444) and
`SlackScheduler.schedule_meeting_reminders` (lines 510-531) register jobs
in the global `schedule` registry while they iterate the configuration.
A pass is modelled as a function returning the registered jobs in
registration order, the log lines printed, and whether an uncaught
exception escaped the pass (a `ValueError` from `convert_to_24h_format`
on a malformed time, or an `AttributeError` from
`getattr(schedule.every(), day)` on a day that is not a weekday-method
name): jobs registered before the exception stay registered, nothing
after it runs. -/

/-- One registered job: the day and raw 12-hour time it was registered
from, the 24-hour time handed to `schedule`, and the payload and channel
captured by the `scheduled_message_sender` closure. -/
structure RegEntry where
  day : List Char
  rawTime : List Char
  time24 : List Char
  payload : List Char
  channel : List Char
deriving DecidableEq, Repr

/-- The outcome of one planning pass. -/
structure PassResult where
  instrs : List RegEntry
  logs : List LogEntry
  crashed : Bool
deriving DecidableEq, Repr

/-- One shift category of `config["shift_message_config"]` (lines 171-220):
its `days` list and its `messages` dict as an insertion-ordered list of
(12-hour time, message) pairs. -/
structure ShiftConfig where
  days : List (List Char)
  messages : List (List Char × List Char)
deriving DecidableEq, Repr

/-- One entry of `config["meeting_reminders"]` (lines 221-257): the `days`
list and the `message` attached to one 12-hour time key. -/
structure MeetingInfo where
  days : List (List Char)
  message : List Char
deriving DecidableEq, Repr

/-- Python `dict.get` over an insertion-ordered association list (keys of a
dict literal are unique, so first match is the match). -/
def alookup {α : Type} : List (List Char × α) → List Char → Option α
  | [], _ => none
  | (k, v) :: rest, key => if k = key then some v else alookup rest key

/-- The weekday attribute names `schedule.every()` exposes: any other
string makes `getattr(schedule.every(), day)` raise `AttributeError`. -/
def weekdays : List (List Char) :=
  [lc "monday", lc "tuesday", lc "wednesday", lc "thursday", lc "friday",
   lc "saturday", lc "sunday"]

/-- The flattened iteration of the shift loops (lines 439-444): outer loop
over `days`, inner loop over `messages`, yielding (day, time, message)
triples in iteration order. -/
def shiftEntries (cfg : ShiftConfig) : List (List Char × List Char × List Char) :=
  (cfg.days.map (fun d => cfg.messages.map (fun p => (d, p.1, p.2)))).flatten

/-- The body of the shift loops (lines 439-444): convert each entry's time
and register an every-day job carrying the day-gated sender closure; a
malformed time raises out of the loop, keeping earlier registrations and
skipping everything after it. -/
def runShiftEntries (channel : List Char) :
    List (List Char × List Char × List Char) → PassResult
  | [] => ⟨[], [], false⟩
  | (d, t, m) :: rest =>
    match convert_to_24h_format t with
    | none => ⟨[], [], true⟩
    | some t24 =>
      let r := runShiftEntries channel rest
      ⟨⟨d, t, t24, m, channel⟩ :: r.instrs, r.logs, r.crashed⟩

/-- `SlackScheduler.schedule_shift_reminders` (lines 429-444): skip with a
log line when the feature flag is absent or false
(`config["enable_features"].get(shift_type, False)`); otherwise iterate the
category's configuration (`config["shift_message_config"].get(shift_type,
{})`, empty when the key is missing) registering one job per (day, time)
with no deduplication and no logging. -/
def schedule_shift_reminders (enableFeatures : List (List Char × Bool))
    (shiftMessageConfig : List (List Char × ShiftConfig))
    (shift_type channel : List Char) : PassResult :=
  if (alookup enableFeatures shift_type).getD false then
    runShiftEntries channel
      (shiftEntries ((alookup shiftMessageConfig shift_type).getD ⟨[], []⟩))
  else
    ⟨[], [⟨lc "Scheduling",
       shift_type ++ lc " is disabled in the config. Skipping scheduling."⟩],
     false⟩

/-- The flattened iteration of the meeting loops (lines 520-531): outer
loop over the `meeting_reminders` items, inner loop over each entry's
`days`, yielding (day, time, message) triples in iteration order. -/
def meetingEntries (table : List (List Char × MeetingInfo)) :
    List (List Char × List Char × List Char) :=
  (table.map (fun p => p.2.days.map (fun d => (d, p.1, p.2.message)))).flatten

/-- The `scheduled_times` dedup key of line 524: the f-string
`f"{day}_{time_key}"`. -/
def scheduleKey (d t : List Char) : List Char := d ++ '_' :: t

/-- The "Scheduling" log line of line 531 for a registered meeting job. -/
def meetingLog (e : RegEntry) : LogEntry :=
  ⟨lc "Scheduling",
   lc "Scheduled meeting reminder " ++ apos :: e.payload ++ apos :: lc " at "
     ++ e.rawTime ++ lc " on " ++ e.day⟩

/-- The body of the meeting loops (lines 520-531): entries whose
`f"{day}_{time_key}"` key is already in `scheduled_times` are skipped with
no log; otherwise `schedule_meeting_on_day` (line 490) registers the job —
raising out of the pass on a non-weekday day name (`getattr`) or a
malformed time (`convert_to_24h_format`) — the key is added to the set and
the registration is logged. -/
def runMeetingEntries (channel : List Char) :
    List (List Char × List Char × List Char) → List (List Char) → PassResult
  | [], _ => ⟨[], [], false⟩
  | (d, t, m) :: rest, seen =>
    if scheduleKey d t ∈ seen then runMeetingEntries channel rest seen
    else if d ∈ weekdays then
      match convert_to_24h_format t with
      | none => ⟨[], [], true⟩
      | some t24 =>
        let e : RegEntry := ⟨d, t, t24, m, channel⟩
        let r := runMeetingEntries channel rest (scheduleKey d t :: seen)
        ⟨e :: r.instrs, meetingLog e :: r.logs, r.crashed⟩
    else ⟨[], [], true⟩

/-- `SlackScheduler.schedule_meeting_reminders` (lines 510-531): skip with
a log line when `config["enable_features"]["meeting_reminders"]` is false;
otherwise run the loops with an empty `scheduled_times` set. -/
def schedule_meeting_reminders (meetingFlag : Bool)
    (table : List (List Char × MeetingInfo)) (channel : List Char) : PassResult :=
  if meetingFlag then runMeetingEntries channel (meetingEntries table) []
  else
    ⟨[],
     [⟨lc "Scheduling",
       lc "Meeting reminders are disabled in the config. Skipping scheduling."⟩],
     false⟩

/-! ## Tick dispatch

`SlackScheduler.scheduled_message_sender` (lines 465-472) returns a closure
that compares `datetime.datetime.now().strftime("%A").lower()` with the
captured day and sends the captured message on a match.  The time gate is
the third-party `schedule` library's: a job registered `.at(t)` runs on the
tick whose current time is `t` (spec section 4.3, "only instructions
matching the exact current tick fire"). -/

/-- ASCII lower-casing, as `str.lower()` acts on `strftime("%A")` output. -/
def lowerStr (cs : List Char) : List Char :=
  cs.map fun c => if 'A' ≤ c ∧ c ≤ 'Z' then Char.ofNat (c.toNat + 32) else c

/-- The closure `scheduled_message_sender` returns (lines 467-472), given
the current day name: the (channel, message) deliveries it hands to
`send_message`. -/
def scheduled_message_sender (channel message day : List Char)
    (currentDayName : List Char) : List (List Char × List Char) :=
  if lowerStr currentDayName = day then [(channel, message)] else []

/-- Modelled from the spec: the `schedule` library (an external collaborator,
not in the repository) runs a job registered `.at(t)` exactly on the tick
whose current time equals `t`; on that tick the job's sender closure runs.
`tickFire` yields the deliveries one registered job makes on the tick with
the given current day name and current 24-hour time. -/
def tickFire (e : RegEntry) (currentDayName currentTime24 : List Char) :
    List (List Char × List Char) :=
  if currentTime24 = e.time24 then
    scheduled_message_sender e.channel e.payload e.day currentDayName
  else []

/-- One tick over the whole registered schedule (`schedule.run_pending()`,
line 593): the deliveries of every registered job on this tick. -/
def runTick (instrs : List RegEntry) (currentDayName currentTime24 : List Char) :
    List (List Char × List Char) :=
  (instrs.map (fun e => tickFire e currentDayName currentTime24)).flatten

/-! ## The configuration (`SlackScheduler.config`, lines 147-262)

The class-level config dict, embedded field by field.  The command help
texts (`description` strings, read only by the help paths) and the
`random_messages` list (read by no code path of the source) are not
embedded; the claims touch neither. -/

/-- `config["enable_features"]` (lines 148-155). -/
def enable_features : List (List Char × Bool) :=
  [(lc "day_shift", true),
   (lc "night_shift", true),
   (lc "weekend_shift", true),
   (lc "overtime_shift", true),
   (lc "meeting_reminders", false),
   (lc "random_messages", false)]

/-- The `default_channel` each command of `config["commands"]`
(lines 156-170) configures: `/w` has `"C043NCYSH1V"`, `help` has none. -/
def commandDefaultChannel : List Char → Option (List Char) :=
  fun cmd => if cmd = lc "/w" then some (lc "C043NCYSH1V") else none

/-- `config["shift_message_config"]` (lines 171-220).  Note the four keys:
`day_shift`, `night_shift`, `weekend`, `overtime`. -/
def shift_message_config : List (List Char × ShiftConfig) :=
  [(lc "day_shift",
    ⟨[lc "monday", lc "tuesday", lc "wednesday", lc "thursday", lc "friday"],
     [(lc "09:00 AM", lc "Good morning, team. Let's commence our cybersecurity tasks for the day."),
      (lc "11:15 AM", lc "Reminder: Short break from 11:15 to 11:30. Please take a moment to rest."),
      (lc "11:30 AM", lc "Break time is over. Please continue with your scheduled cybersecurity activities."),
      (lc "01:00 PM", lc "Lunch break from 13:00 to 14:00. Remember to step away from your workstations."),
      (lc "02:00 PM", lc "Lunch break has ended. Resume your cybersecurity responsibilities."),
      (lc "04:00 PM", lc "Scheduled break from 16:00 to 16:15. A brief pause for regrouping."),
      (lc "04:15 PM", lc "Break time has concluded. Please proceed with your tasks."),
      (lc "05:00 PM", lc "End of day's shift. Ensure your work is properly saved and secured.")]⟩),
   (lc "night_shift",
    ⟨[lc "monday", lc "tuesday", lc "wednesday", lc "thursday", lc "friday"],
     [(lc "06:30 PM", lc "Night shift commences. Teams are to remain vigilant."),
      (lc "08:00 PM", lc "Scheduled break from 20:00 to 20:15. Please take this time to relax."),
      (lc "08:15 PM", lc "Break has ended. Resume night-time cybersecurity operations."),
      (lc "09:00 PM", lc "Mid-shift break from 21:00 to 21:15. Use this time to recharge."),
      (lc "10:00 PM", lc "Continue with night shift duties. Maintain focus and diligence."),
      (lc "12:00 AM", lc "Short break from 00:00 to 00:15. Stay alert and prepared."),
      (lc "12:15 AM", lc "Resume night shift activities until the end of the shift."),
      (lc "02:00 AM", lc "Night shift concludes. Ensure all tasks are completed before logging off.")]⟩),
   (lc "weekend",
    ⟨[lc "saturday", lc "sunday"],
     [(lc "11:00 AM", lc "Weekend operations start now. Dedication to tasks is essential."),
      (lc "01:00 PM", lc "Lunch break from 13:00 to 14:00. Take this time for a proper meal."),
      (lc "02:00 PM", lc "Resume weekend duties. Focus on completing all scheduled activities."),
      (lc "04:00 PM", lc "Take a brief break from 16:00 to 16:15. Reflect on tasks completed."),
      (lc "04:15 PM", lc "Continue with the remaining tasks for the weekend."),
      (lc "05:00 PM", lc "Weekend operations conclude. Ensure all activities are logged appropriately.")]⟩),
   (lc "overtime",
    ⟨[lc "saturday", lc "sunday"],
     [(lc "02:00 AM", lc "Overtime shift begins. Please concentrate on pending tasks."),
      (lc "03:30 AM", lc "Short break from 03:30 to 03:45. Use this time to rest briefly."),
      (lc "03:45 AM", lc "Resume overtime work. Prioritize tasks efficiently."),
      (lc "05:00 AM", lc "Take a final break from 05:00 to 05:15. Prepare for the last stretch of work."),
      (lc "05:15 AM", lc "Continue with the remaining overtime tasks."),
      (lc "06:00 AM", lc "Overtime shift ends. Confirm completion of all tasks before logging off.")]⟩)]

/-- `config["meeting_reminders"]` (lines 221-257). -/
def meeting_reminders : List (List Char × MeetingInfo) :=
  [(lc "09:30 AM",
    ⟨[lc "monday"],
     lc "9:30 AM – 10:00 AM (Mon) - Cybersecurity Sprint Planning\nMeeting ID: 325 692 613 318\nPasscode: Secure123\nLobby Bypass: People in org and guests"⟩),
   (lc "11:15 AM",
    ⟨[lc "monday", lc "tuesday", lc "wednesday", lc "thursday", lc "friday"],
     lc "11:15 AM – 11:30 AM (Every weekday (Mon-Fri)) - Threat Intelligence Briefing\nMeeting ID: 393 725 551 975\nPasscode: ThreatNet\nLobby Bypass: People in org and guests"⟩),
   (lc "11:40 AM",
    ⟨[lc "monday", lc "tuesday", lc "wednesday", lc "thursday", lc "friday"],
     lc "11:40 AM – 12:10 PM (Every weekday (Mon-Fri)) - Security Operations Sync-Up\nMeeting ID: 329 721 470 133\nPasscode: OpsSecure\nLobby Bypass: People in org and guests"⟩),
   (lc "01:00 PM",
    ⟨[lc "tuesday"],
     lc "1:00 PM – 2:00 PM (Tue) - Vulnerability Assessment Review\nMeeting ID: 389 305 352 850\nPasscode: VulnScan\nLobby Bypass: People in org and guests"⟩),
   (lc "01:30 PM",
    ⟨[lc "thursday"],
     lc "1:30 PM – 2:30 PM (Thu) - Incident Response Team Meeting\nMeeting ID: 371 990 411 935\nPasscode: IRReady\nLobby Bypass: People in org and guests"⟩),
   (lc "02:30 PM",
    ⟨[lc "friday"],
     lc "2:30 PM – 3:00 PM (Fri) - Weekly Cybersecurity Strategy Session\nMeeting ID: 367 910 333 672\nPasscode: StrategySec\nLobby Bypass: People in org and guests"⟩),
   (lc "04:00 PM",
    ⟨[lc "friday"],
     lc "4:00 PM – 4:30 PM (Fri) - Security Tooling Sprint Review\nMeeting ID: 318 600 963 564\nPasscode: ToolsRev\nLobby Bypass: People in org and guests"⟩),
   (lc "04:30 PM",
    ⟨[lc "friday"],
     lc "4:30 PM – 5:00 PM (Fri) - Cybersecurity Retrospective and Look Ahead\nMeeting ID: 389 805 633 508\nPasscode: CyberLook\nLobby Bypass: People in org and guests"⟩)]

/-! ## Specification-side helpers

Declarative predicates and reference functions the claim statements
compare the model against. -/

/-- Some pair of distinct positions of the list satisfies `p`. -/
def anyPairB (p : RegEntry → RegEntry → Bool) : List RegEntry → Bool
  | [] => false
  | a :: rest => rest.any (p a) || anyPairB p rest

/-- Two registered jobs share the claim's canonical
(day, time, payload) triple. -/
def sameTripleB (a b : RegEntry) : Bool :=
  a.day == b.day && a.time24 == b.time24 && a.payload == b.payload

/-- Two registered jobs share the dedup key the source actually uses:
the raw `f"{day}_{time_key}"` string. -/
def sameKeyB (a b : RegEntry) : Bool :=
  scheduleKey a.day a.rawTime == scheduleKey b.day b.rawTime

/-- Two registered jobs share day, raw time string and payload. -/
def sameRawTripleB (a b : RegEntry) : Bool :=
  a.day == b.day && a.rawTime == b.rawTime && a.payload == b.payload

/-- Declarative first-seen filter, following the spec's Dedup Planner words
("if an instruction with that key has not yet been emitted, emit it and
mark the key seen; otherwise skip"): keep the first entry for each
`f"{day}_{time_key}"` key, in iteration order. -/
def firstSeenKeys : List (List Char × List Char × List Char) → List (List Char) →
    List (List Char × List Char × List Char)
  | [], _ => []
  | (d, t, m) :: rest, seen =>
    if scheduleKey d t ∈ seen then firstSeenKeys rest seen
    else (d, t, m) :: firstSeenKeys rest (scheduleKey d t :: seen)

/-- A trigger-table entry whose time string `convert_to_24h_format`
accepts. -/
def entryOkB (e : List Char × List Char × List Char) : Bool :=
  (convert_to_24h_format e.2.1).isSome

/-- The registered job a well-formed shift entry produces. -/
def mkShiftJob (channel : List Char) (e : List Char × List Char × List Char) :
    RegEntry :=
  ⟨e.1, e.2.1, (convert_to_24h_format e.2.1).getD [], e.2.2, channel⟩

/-! ## Claim theorems -/

/-- C9: calling `schedule_shift_reminders` with shift type `weekend_shift`
or `overtime_shift` registers zero jobs although the feature flag is
enabled, because `shift_message_config` stores those categories under the
keys `weekend` and `overtime`, so the `.get(shift_type, {})` lookup falls
back to an empty configuration. -/
theorem C9_missing_shift_keys : ∀ channel : List Char,
    (alookup enable_features (lc "weekend_shift")).getD false = true
    ∧ (alookup enable_features (lc "overtime_shift")).getD false = true
    ∧ alookup shift_message_config (lc "weekend_shift") = none
    ∧ alookup shift_message_config (lc "overtime_shift") = none
    ∧ (alookup shift_message_config (lc "weekend")).isSome = true
    ∧ (alookup shift_message_config (lc "overtime")).isSome = true
    ∧ schedule_shift_reminders enable_features shift_message_config
        (lc "weekend_shift") channel = ⟨[], [], false⟩
    ∧ schedule_shift_reminders enable_features shift_message_config
        (lc "overtime_shift") channel = ⟨[], [], false⟩ := by
  intro channel
  exact ⟨by decide, by decide, by decide, by decide, by decide, by decide, rfl, rfl⟩

/-- C7: a category whose feature flag is disabled contributes zero
registered jobs, whatever the trigger tables contain, and the pass logs
that the category was skipped: the shift pass skips when
`enable_features.get(shift_type, False)` is falsy, the meeting pass when
`enable_features["meeting_reminders"]` is false. -/
theorem C7_feature_gating :
    (∀ (enableFeatures : List (List Char × Bool))
       (shiftMessageConfig : List (List Char × ShiftConfig))
       (shift_type channel : List Char),
       (alookup enableFeatures shift_type).getD false = false →
       schedule_shift_reminders enableFeatures shiftMessageConfig shift_type channel
         = ⟨[],
            [⟨lc "Scheduling",
              shift_type ++ lc " is disabled in the config. Skipping scheduling."⟩],
            false⟩)
    ∧ (∀ (table : List (List Char × MeetingInfo)) (channel : List Char),
       schedule_meeting_reminders false table channel
         = ⟨[],
            [⟨lc "Scheduling",
              lc "Meeting reminders are disabled in the config. Skipping scheduling."⟩],
            false⟩) := by
  constructor
  · intro ef smc st ch h
    simp [schedule_shift_reminders, h]
  · intro table ch
    rfl

/-- Witness for C7: the real configuration disables `meeting_reminders`,
so both passes skip with the logged line. -/
theorem C7_feature_gating_witness :
    schedule_shift_reminders enable_features shift_message_config
        (lc "meeting_reminders") (lc "C1")
      = ⟨[],
         [⟨lc "Scheduling",
           lc "meeting_reminders" ++ lc " is disabled in the config. Skipping scheduling."⟩],
         false⟩
    ∧ schedule_meeting_reminders false meeting_reminders (lc "C1")
      = ⟨[],
         [⟨lc "Scheduling",
           lc "Meeting reminders are disabled in the config. Skipping scheduling."⟩],
         false⟩ :=
  ⟨C7_feature_gating.1 enable_features shift_message_config
     (lc "meeting_reminders") (lc "C1") (by decide),
   C7_feature_gating.2 meeting_reminders (lc "C1")⟩

/-- C6: a registered job delivers exactly on the tick whose current
(day, time) equals its registered (day, time): the sender closure fires
when the lower-cased current weekday name equals the captured day, the
library time gate when the current time equals the registered time; in
particular a (wednesday, 09:00) job fires at (Wednesday, 09:00) and not at
(Wednesday, 09:01) or (Thursday, 09:00). -/
theorem C6_tick_exactness :
    (∀ (e : RegEntry) (d t : List Char),
       tickFire e d t ≠ [] ↔ (lowerStr d = e.day ∧ t = e.time24))
    ∧ (∀ (e : RegEntry) (d t : List Char),
       tickFire e d t =
         if lowerStr d = e.day ∧ t = e.time24 then [(e.channel, e.payload)] else [])
    ∧ (∀ (m ch : List Char),
       tickFire ⟨lc "wednesday", lc "09:00 AM", lc "09:00", m, ch⟩
         (lc "Wednesday") (lc "09:00") = [(ch, m)])
    ∧ (∀ (m ch : List Char),
       tickFire ⟨lc "wednesday", lc "09:00 AM", lc "09:00", m, ch⟩
         (lc "Wednesday") (lc "09:01") = [])
    ∧ (∀ (m ch : List Char),
       tickFire ⟨lc "wednesday", lc "09:00 AM", lc "09:00", m, ch⟩
         (lc "Thursday") (lc "09:00") = []) := by
  refine ⟨?_, ?_, fun m ch => rfl, fun m ch => rfl, fun m ch => rfl⟩
  · intro e d t
    unfold tickFire scheduled_message_sender
    split_ifs with h1 h2 <;> simp_all
  · intro e d t
    unfold tickFire scheduled_message_sender
    split_ifs with h1 h2 h3 h4 <;> simp_all

/-! ### Helper lemmas on the meeting pass -/

/-- Step lemma: an unseen, well-formed entry registers a job, logs it and
marks its key seen. -/
theorem runMeeting_cons_reg (channel d t m : List Char)
    (tl : List (List Char × List Char × List Char)) (seen : List (List Char))
    (t24 : List Char)
    (hseen : scheduleKey d t ∉ seen) (hday : d ∈ weekdays)
    (hconv : convert_to_24h_format t = some t24) :
    runMeetingEntries channel ((d, t, m) :: tl) seen =
      ⟨⟨d, t, t24, m, channel⟩ ::
         (runMeetingEntries channel tl (scheduleKey d t :: seen)).instrs,
       meetingLog ⟨d, t, t24, m, channel⟩ ::
         (runMeetingEntries channel tl (scheduleKey d t :: seen)).logs,
       (runMeetingEntries channel tl (scheduleKey d t :: seen)).crashed⟩ := by
  simp [runMeetingEntries, hseen, hday, hconv]

/-- Step lemma: a seen key is skipped with no job, no log. -/
theorem runMeeting_cons_skip (channel d t m : List Char)
    (tl : List (List Char × List Char × List Char)) (seen : List (List Char))
    (hseen : scheduleKey d t ∈ seen) :
    runMeetingEntries channel ((d, t, m) :: tl) seen =
      runMeetingEntries channel tl seen := by
  simp [runMeetingEntries, hseen]

/-- Every job the meeting loop registers has a key outside the incoming
`scheduled_times` set, and no two registered jobs share a key. -/
theorem runMeeting_no_dup (channel : List Char)
    (entries : List (List Char × List Char × List Char)) :
    ∀ seen : List (List Char),
      (∀ e ∈ (runMeetingEntries channel entries seen).instrs,
         scheduleKey e.day e.rawTime ∉ seen)
      ∧ anyPairB sameKeyB (runMeetingEntries channel entries seen).instrs = false := by
  induction entries with
  | nil => intro seen; simp [runMeetingEntries, anyPairB]
  | cons hd tl ih =>
    intro seen
    obtain ⟨d, t, m⟩ := hd
    by_cases hseen : scheduleKey d t ∈ seen
    · simpa [runMeeting_cons_skip channel d t m tl seen hseen] using ih seen
    · by_cases hday : d ∈ weekdays
      · cases hconv : convert_to_24h_format t with
        | none => simp [runMeetingEntries, hseen, hday, hconv, anyPairB]
        | some t24 =>
          have ihs := ih (scheduleKey d t :: seen)
          have hfresh : ∀ e ∈ (runMeetingEntries channel tl
              (scheduleKey d t :: seen)).instrs,
              scheduleKey e.day e.rawTime ≠ scheduleKey d t ∧
              scheduleKey e.day e.rawTime ∉ seen := by
            intro e he
            have h := ihs.1 e he
            rw [List.mem_cons] at h
            push_neg at h
            exact h
          rw [runMeeting_cons_reg channel d t m tl seen t24 hseen hday hconv]
          constructor
          · intro e he
            rcases List.mem_cons.mp he with rfl | he2
            · exact hseen
            · exact (hfresh e he2).2
          · show (_ || _) = false
            rw [Bool.or_eq_false_iff]
            refine ⟨?_, ihs.2⟩
            rw [List.any_eq_false]
            intro b hb
            have hne := (hfresh b hb).1
            simp only [sameKeyB, beq_eq_false_iff_ne, ne_eq]
            intro hkey
            exact hne (beq_iff_eq.mp hkey).symm
      · simp [runMeetingEntries, hseen, hday, anyPairB]

/-- `anyPairB` is antitone in the pair predicate. -/
theorem anyPairB_mono (p q : RegEntry → RegEntry → Bool)
    (hpq : ∀ a b, p a b = true → q a b = true) :
    ∀ l : List RegEntry, anyPairB q l = false → anyPairB p l = false := by
  intro l
  induction l with
  | nil => simp [anyPairB]
  | cons a rest ih =>
    intro h
    rw [anyPairB, Bool.or_eq_false_iff] at h ⊢
    refine ⟨?_, ih h.2⟩
    rw [List.any_eq_false]
    intro b hb hpb
    have hq := hpq a b hpb
    have := (List.any_eq_false.mp h.1) b hb
    exact this hq

/-- C2 (counterexample): the shift pass performs no deduplication at all:
with the flag enabled and a table whose `days` list repeats `monday`, two
registered jobs share the identical (day, time, payload) triple, so the
claimed schedule-wide invariant fails. -/
theorem C2_counterexample :
    anyPairB sameTripleB
        (schedule_shift_reminders [(lc "s", true)]
          [(lc "s", ⟨[lc "monday", lc "monday"], [(lc "09:00 AM", lc "P")]⟩)]
          (lc "s") (lc "CH")).instrs = true
    ∧ (schedule_shift_reminders [(lc "s", true)]
          [(lc "s", ⟨[lc "monday", lc "monday"], [(lc "09:00 AM", lc "P")]⟩)]
          (lc "s") (lc "CH")).instrs.length = 2 := by
  constructor <;> decide

/-- C2 (amended): the duplicate-suppression contract holds only for the
meeting-reminder pass and only at the granularity of the raw
`f"{day}_{time_key}"` key: after any meeting planning pass no two
registered jobs share that key — in particular no two share the identical
(day, raw time string, payload) triple, so two meeting triggers with an
identical raw (day, time, payload) yield exactly one job.  (The shift pass
deduplicates nothing, see the counterexample.) -/
theorem C2_amended_dedup :
    ∀ (table : List (List Char × MeetingInfo)) (channel : List Char),
      anyPairB sameKeyB (schedule_meeting_reminders true table channel).instrs = false
      ∧ anyPairB sameRawTripleB
          (schedule_meeting_reminders true table channel).instrs = false := by
  intro table channel
  have h := (runMeeting_no_dup channel (meetingEntries table) []).2
  have hkey : anyPairB sameKeyB
      (schedule_meeting_reminders true table channel).instrs = false := by
    simpa [schedule_meeting_reminders] using h
  refine ⟨hkey, ?_⟩
  refine anyPairB_mono sameRawTripleB sameKeyB ?_ _ hkey
  intro a b hab
  simp only [sameRawTripleB, Bool.and_eq_true, beq_iff_eq] at hab
  simp [sameKeyB, scheduleKey, hab.1.1, hab.1.2]

/-- The meeting loop refines the declarative first-seen filter on
well-formed entries, logs exactly one line per registered job (a dropped
duplicate logs nothing), and raises nothing. -/
theorem runMeeting_spec (channel : List Char)
    (entries : List (List Char × List Char × List Char)) :
    ∀ seen : List (List Char),
      (∀ e ∈ entries, e.1 ∈ weekdays ∧ (convert_to_24h_format e.2.1).isSome) →
      ((runMeetingEntries channel entries seen).instrs.map
          (fun e => (e.day, e.rawTime, e.payload))
        = firstSeenKeys entries seen)
      ∧ (runMeetingEntries channel entries seen).logs
        = (runMeetingEntries channel entries seen).instrs.map meetingLog
      ∧ (runMeetingEntries channel entries seen).crashed = false := by
  induction entries with
  | nil => intro seen _; simp [runMeetingEntries, firstSeenKeys]
  | cons hd tl ih =>
    intro seen hval
    obtain ⟨d, t, m⟩ := hd
    have hd_val := hval (d, t, m) (List.mem_cons_self _ _)
    have htl_val : ∀ e ∈ tl, e.1 ∈ weekdays ∧ (convert_to_24h_format e.2.1).isSome :=
      fun e he => hval e (List.mem_cons_of_mem _ he)
    by_cases hseen : scheduleKey d t ∈ seen
    · rw [runMeeting_cons_skip channel d t m tl seen hseen]
      have hfs : firstSeenKeys ((d, t, m) :: tl) seen = firstSeenKeys tl seen := by
        simp [firstSeenKeys, hseen]
      rw [hfs]
      exact ih seen htl_val
    · obtain ⟨hday, hok⟩ := hd_val
      obtain ⟨t24, hconv⟩ := Option.isSome_iff_exists.mp hok
      rw [runMeeting_cons_reg channel d t m tl seen t24 hseen hday hconv]
      have hfs : firstSeenKeys ((d, t, m) :: tl) seen
          = (d, t, m) :: firstSeenKeys tl (scheduleKey d t :: seen) := by
        simp [firstSeenKeys, hseen]
      rw [hfs]
      have ihs := ih (scheduleKey d t :: seen) htl_val
      refine ⟨?_, ?_, ihs.2.2⟩
      · simpa using ihs.1
      · simpa using ihs.2.1

/-- C1 (counterexample): two meeting entries at the same canonical
(day, time) — raw time keys `09:00 AM` and `9:00 AM`, both monday — with
different payloads are BOTH registered (the dedup key is the raw string,
not the canonical time), so "exactly one FiringInstruction survives" fails;
and when a duplicate is dropped (same entry listing monday twice) the drop
is silent: the only log line is the "Scheduling" line of the kept job, no
warning is recorded. -/
theorem C1_counterexample :
    ((schedule_meeting_reminders true
        [(lc "09:00 AM", ⟨[lc "monday"], lc "A"⟩),
         (lc "9:00 AM", ⟨[lc "monday"], lc "B"⟩)] (lc "CH")).instrs.map
        (fun e => (e.day, e.time24, e.payload)))
      = [(lc "monday", lc "09:00", lc "A"), (lc "monday", lc "09:00", lc "B")]
    ∧ (schedule_meeting_reminders true
        [(lc "09:00 AM", ⟨[lc "monday"], lc "A"⟩),
         (lc "9:00 AM", ⟨[lc "monday"], lc "B"⟩)] (lc "CH")).instrs.length = 2
    ∧ (schedule_meeting_reminders true
        [(lc "09:00 AM", ⟨[lc "monday", lc "monday"], lc "A"⟩)]
        (lc "CH")).instrs.length = 1
    ∧ (schedule_meeting_reminders true
        [(lc "09:00 AM", ⟨[lc "monday", lc "monday"], lc "A"⟩)]
        (lc "CH")).logs
      = [meetingLog ⟨lc "monday", lc "09:00 AM", lc "09:00", lc "A", lc "CH"⟩] := by
  refine ⟨by decide, by decide, by decide, by decide⟩

/-- C1 (amended): the meeting pass deduplicates on the raw
`f"{day}_{time_key}"` string, not the canonical (day, time): the first
entry seen for a key is registered (first-seen wins) and logged; a later
entry with the same raw key is dropped silently — no warning is recorded,
the logs are exactly one "Scheduling" line per registered job; entries
whose canonical times coincide but whose raw time strings differ are not
deduplicated at all. -/
theorem C1_amended_first_seen :
    ∀ (table : List (List Char × MeetingInfo)) (channel : List Char),
      (∀ e ∈ meetingEntries table,
         e.1 ∈ weekdays ∧ (convert_to_24h_format e.2.1).isSome) →
      ((schedule_meeting_reminders true table channel).instrs.map
          (fun e => (e.day, e.rawTime, e.payload))
        = firstSeenKeys (meetingEntries table) [])
      ∧ (schedule_meeting_reminders true table channel).logs
        = (schedule_meeting_reminders true table channel).instrs.map meetingLog
      ∧ (schedule_meeting_reminders true table channel).crashed = false := by
  intro table channel hval
  simpa [schedule_meeting_reminders] using
    runMeeting_spec channel (meetingEntries table) [] hval

/-- Witness for C1 (amended): the repository's own meeting table is
well-formed, and the pass on it refines the first-seen filter with one log
line per registered job and no crash. -/
theorem C1_amended_first_seen_witness :
    ((schedule_meeting_reminders true meeting_reminders (lc "C1")).instrs.map
        (fun e => (e.day, e.rawTime, e.payload))
      = firstSeenKeys (meetingEntries meeting_reminders) [])
    ∧ (schedule_meeting_reminders true meeting_reminders (lc "C1")).logs
      = (schedule_meeting_reminders true meeting_reminders (lc "C1")).instrs.map
          meetingLog
    ∧ (schedule_meeting_reminders true meeting_reminders (lc "C1")).crashed
      = false :=
  C1_amended_first_seen meeting_reminders (lc "C1") (by decide)

/-- The shift loop registers exactly the longest well-formed prefix of its
entries, logs nothing, and raises iff some entry's time is malformed. -/
theorem runShift_spec (channel : List Char) :
    ∀ entries : List (List Char × List Char × List Char),
      runShiftEntries channel entries =
        ⟨(entries.takeWhile entryOkB).map (mkShiftJob channel), [],
         entries.any (fun e => !entryOkB e)⟩ := by
  intro entries
  induction entries with
  | nil => simp [runShiftEntries]
  | cons e tl ih =>
    obtain ⟨d, t, m⟩ := e
    cases hconv : convert_to_24h_format t with
    | none =>
      have hbad : entryOkB (d, t, m) = false := by simp [entryOkB, hconv]
      simp [runShiftEntries, hconv, hbad]
    | some t24 =>
      have hgood : entryOkB (d, t, m) = true := by simp [entryOkB, hconv]
      have hmk : mkShiftJob channel (d, t, m) = ⟨d, t, t24, m, channel⟩ := by
        simp [mkShiftJob, hconv]
      simp [runShiftEntries, hconv, ih, hgood, hmk]

/-- C8 (counterexample): with the category enabled and a table containing a
malformed time (`25:00`) between two well-formed entries, the pass
registers only the entry before the bad one, logs nothing, and the
exception escapes: the later well-formed entry is NOT scheduled and the
bad entry is neither logged nor skipped, contradicting the claim that a
malformed entry is fatal only for itself. -/
theorem C8_counterexample :
    (schedule_shift_reminders [(lc "day_shift", true)]
        [(lc "day_shift",
          ⟨[lc "monday"],
           [(lc "09:00 AM", lc "A"), (lc "25:00", lc "B"),
            (lc "10:00 AM", lc "C")]⟩)]
        (lc "day_shift") (lc "CH")).crashed = true
    ∧ (schedule_shift_reminders [(lc "day_shift", true)]
        [(lc "day_shift",
          ⟨[lc "monday"],
           [(lc "09:00 AM", lc "A"), (lc "25:00", lc "B"),
            (lc "10:00 AM", lc "C")]⟩)]
        (lc "day_shift") (lc "CH")).instrs.map (fun e => e.payload) = [lc "A"]
    ∧ (schedule_shift_reminders [(lc "day_shift", true)]
        [(lc "day_shift",
          ⟨[lc "monday"],
           [(lc "09:00 AM", lc "A"), (lc "25:00", lc "B"),
            (lc "10:00 AM", lc "C")]⟩)]
        (lc "day_shift") (lc "CH")).logs = [] := by
  refine ⟨by decide, by decide, by decide⟩

/-- C8 (amended): a malformed time string in a trigger-table entry aborts
the whole shift planning pass at that entry: the entries strictly before it
in iteration order are registered, the bad entry and every entry after it
are not, nothing is logged for the bad entry, and the `ValueError`
propagates out of the pass (crashing the load). -/
theorem C8_amended_abort :
    ∀ (enableFeatures : List (List Char × Bool))
      (shiftMessageConfig : List (List Char × ShiftConfig))
      (shift_type channel : List Char),
      (alookup enableFeatures shift_type).getD false = true →
      schedule_shift_reminders enableFeatures shiftMessageConfig shift_type channel
        = ⟨((shiftEntries
              ((alookup shiftMessageConfig shift_type).getD ⟨[], []⟩)).takeWhile
                entryOkB).map (mkShiftJob channel),
           [],
           (shiftEntries
              ((alookup shiftMessageConfig shift_type).getD ⟨[], []⟩)).any
             (fun e => !entryOkB e)⟩ := by
  intro ef smc st ch h
  simp [schedule_shift_reminders, h, runShift_spec]

/-- Witness for C8 (amended), at the counterexample's table. -/
theorem C8_amended_abort_witness :
    schedule_shift_reminders [(lc "day_shift", true)]
        [(lc "day_shift",
          ⟨[lc "monday"],
           [(lc "09:00 AM", lc "A"), (lc "25:00", lc "B"),
            (lc "10:00 AM", lc "C")]⟩)]
        (lc "day_shift") (lc "CH")
      = ⟨((shiftEntries
            ((alookup [(lc "day_shift",
              (⟨[lc "monday"],
               [(lc "09:00 AM", lc "A"), (lc "25:00", lc "B"),
                (lc "10:00 AM", lc "C")]⟩ : ShiftConfig))]
              (lc "day_shift")).getD ⟨[], []⟩)).takeWhile entryOkB).map
             (mkShiftJob (lc "CH")),
         [],
         (shiftEntries
            ((alookup [(lc "day_shift",
              (⟨[lc "monday"],
               [(lc "09:00 AM", lc "A"), (lc "25:00", lc "B"),
                (lc "10:00 AM", lc "C")]⟩ : ShiftConfig))]
              (lc "day_shift")).getD ⟨[], []⟩)).any (fun e => !entryOkB e)⟩ :=
  C8_amended_abort [(lc "day_shift", true)]
    [(lc "day_shift",
      ⟨[lc "monday"],
       [(lc "09:00 AM", lc "A"), (lc "25:00", lc "B"),
        (lc "10:00 AM", lc "C")]⟩)]
    (lc "day_shift") (lc "CH") (by decide)

/-! ### Helper lemmas on the token scan -/

/-- A switch-free prefix of the components is appended, token by token, to
the message accumulator. -/
theorem parseSwitches_walk :
    ∀ (as rest : List (List Char)) (chan : Option (List Char))
      (msg : List (List Char)),
      lc "-C" ∉ as →
      parseSwitches (as ++ rest) chan msg = parseSwitches rest chan (msg ++ as) := by
  intro as
  induction as with
  | nil => intro rest chan msg _; simp
  | cons a as ih =>
    intro rest chan msg hnot
    have ha : ¬a = lc "-C" := fun h => hnot (h ▸ List.mem_cons_self _ _)
    have has : lc "-C" ∉ as := fun h => hnot (List.mem_cons_of_mem _ h)
    cases hq : as ++ rest with
    | nil =>
      obtain ⟨h1, h2⟩ := List.append_eq_nil.mp hq
      subst h1; subst h2
      simp [parseSwitches]
    | cons u rest2 =>
      rw [List.cons_append, hq]
      simp only [parseSwitches, if_neg ha]
      rw [← hq, ih rest chan (msg ++ [a]) has]
      simp

/-- A component list containing no `-C` binds no channel and becomes the
message verbatim. -/
theorem parseSwitches_no_switch :
    ∀ (ts : List (List Char)) (chan : Option (List Char))
      (msg : List (List Char)),
      lc "-C" ∉ ts → parseSwitches ts chan msg = (chan, msg ++ ts) := by
  intro ts chan msg h
  have hp := parseSwitches_walk ts [] chan msg h
  simpa [parseSwitches] using hp

/-- A single `-C` with a following component binds that component as the
channel and drops both from the message. -/
theorem parseSwitches_with_switch :
    ∀ (as : List (List Char)) (d : List Char) (bs : List (List Char)),
      lc "-C" ∉ as → lc "-C" ∉ bs →
      parseSwitches (as ++ lc "-C" :: d :: bs) none [] = (some d, as ++ bs) := by
  intro as d bs ha hb
  rw [parseSwitches_walk as (lc "-C" :: d :: bs) none [] ha]
  simp only [parseSwitches, if_pos rfl]
  rw [parseSwitches_no_switch bs (some d) ([] ++ as) hb]
  simp

/-- Membership passes through `joinSp`. -/
theorem joinSp_mem :
    ∀ (c : Char) (xs : List (List Char)) (x : List Char),
      x ∈ xs → c ∈ x → c ∈ joinSp xs := by
  intro c xs
  induction xs with
  | nil => intro x hx; exact absurd hx (List.not_mem_nil x)
  | cons y ys ih =>
    intro x hx hc
    cases ys with
    | nil =>
      rcases List.mem_cons.mp hx with rfl | hx2
      · simpa [joinSp] using hc
      · exact absurd hx2 (List.not_mem_nil x)
    | cons z zs =>
      show c ∈ y ++ ' ' :: joinSp (z :: zs)
      rcases List.mem_cons.mp hx with rfl | hx2
      · exact List.mem_append_left _ hc
      · exact List.mem_append_right _ (List.mem_cons_of_mem _ (ih x hx2 hc))

/-- A non-dropped character survives `dropWhile`. -/
theorem dropWhile_mem (p : Char → Bool) (c : Char) (hc : p c = false) :
    ∀ l : List Char, c ∈ l → c ∈ l.dropWhile p := by
  intro l
  induction l with
  | nil => intro h; exact absurd h (List.not_mem_nil c)
  | cons a as ih =>
    intro h
    cases hpa : p a with
    | true =>
      rcases List.mem_cons.mp h with rfl | h2
      · rw [hpa] at hc; exact absurd hc (by simp)
      · simpa [List.dropWhile, hpa] using ih h2
    | false => simpa [List.dropWhile, hpa] using h

/-- A non-whitespace character survives `strip`. -/
theorem trimC_mem (c : Char) (hc : isSpaceC c = false) :
    ∀ l : List Char, c ∈ l → c ∈ trimC l := by
  intro l hl
  unfold trimC
  rw [List.mem_reverse]
  refine dropWhile_mem isSpaceC c hc _ ?_
  rw [List.mem_reverse]
  exact dropWhile_mem isSpaceC c hc _ hl

/-- C10: a `-C` standing as the last component, with nothing after it, is
not treated as a switch and raises no error: the scan leaves the channel
unbound and appends the literal `-C` to the message, and `/w` then falls
back to the configured default channel and sends. -/
theorem C10_trailing_switch :
    ∀ (d : List Char) (ts : List (List Char)),
      lc "-C" ∉ ts → d ≠ [] →
      parseSwitches (ts ++ [lc "-C"]) none [] = (none, ts ++ [lc "-C"])
      ∧ wCommand (some d) (ts ++ [lc "-C"])
        = .sent d (trimC (joinSp (ts ++ [lc "-C"]))) := by
  intro d ts hts hd
  have hps : parseSwitches (ts ++ [lc "-C"]) none [] = (none, ts ++ [lc "-C"]) := by
    rw [parseSwitches_walk ts [lc "-C"] none [] hts]
    simp [parseSwitches]
  refine ⟨hps, ?_⟩
  have hmem : 'C' ∈ trimC (joinSp (ts ++ [lc "-C"])) := by
    refine trimC_mem 'C' (by decide) _ ?_
    exact joinSp_mem 'C' _ (lc "-C")
      (List.mem_append_right _ (List.mem_singleton.mpr rfl)) (by decide)
  have hne : (trimC (joinSp (ts ++ [lc "-C"]))).isEmpty = false := by
    cases hcase : trimC (joinSp (ts ++ [lc "-C"])) with
    | nil => rw [hcase] at hmem; exact absurd hmem (List.not_mem_nil 'C')
    | cons _ _ => rfl
  have hde : d.isEmpty = false := by
    cases d with
    | nil => exact absurd rfl hd
    | cons _ _ => rfl
  unfold wCommand
  rw [hps]
  simp [truthyC, hde, hne]

/-- Witness for C10: `/w hello -C` sends `hello -C` to the default
channel. -/
theorem C10_trailing_switch_witness :
    wCommand (some (lc "C043NCYSH1V")) [lc "hello", lc "-C"]
      = .sent (lc "C043NCYSH1V") (lc "hello -C") := by
  have h := (C10_trailing_switch (lc "C043NCYSH1V") [lc "hello"]
    (by decide) (by decide)).2
  rw [show [lc "hello"] ++ [lc "-C"] = [lc "hello", lc "-C"] from rfl] at h
  rw [h]
  decide

/-- C3: the send-command scan, end to end: a `-C` followed by a component
binds that component as the destination and removes both from the message;
all other components are rejoined with single blanks into the message; with
no `-C` the configured default destination is used; when the destination is
missing (no switch, no truthy default) or the message text is empty, the
command fails with the usage error and nothing is sent. -/
theorem C3_command_parsing :
    (∀ (dflt : Option (List Char)) (as : List (List Char)) (d : List Char)
       (bs : List (List Char)),
       lc "-C" ∉ as → lc "-C" ∉ bs → d ≠ [] →
       wCommand dflt (as ++ lc "-C" :: d :: bs)
         = if (trimC (joinSp (as ++ bs))).isEmpty then .usageError
           else .sent d (trimC (joinSp (as ++ bs))))
    ∧ (∀ (dflt : Option (List Char)) (ts : List (List Char)),
       lc "-C" ∉ ts →
       wCommand dflt ts
         = if truthyC dflt && !(trimC (joinSp ts)).isEmpty then
             .sent (dflt.getD []) (trimC (joinSp ts))
           else .usageError) := by
  constructor
  · intro dflt as d bs ha hb hd
    have hde : d.isEmpty = false := by
      cases d with
      | nil => exact absurd rfl hd
      | cons _ _ => rfl
    unfold wCommand
    rw [parseSwitches_with_switch as d bs ha hb]
    cases hmsg : (trimC (joinSp (as ++ bs))).isEmpty with
    | true => simp [truthyC, hde, hmsg]
    | false => simp [truthyC, hde, hmsg]
  · intro dflt ts hts
    unfold wCommand
    rw [parseSwitches_no_switch ts none [] hts]
    simp [truthyC]

/-- Witness for C3: the spec's two worked examples,
`send -C C123 Good luck @george!` and `send Good luck @george!` with the
configured default destination. -/
theorem C3_command_parsing_witness :
    wCommand (some (lc "C043NCYSH1V"))
        [lc "-C", lc "C123", lc "Good", lc "luck", lc "@george!"]
      = .sent (lc "C123") (lc "Good luck @george!")
    ∧ wCommand (some (lc "C043NCYSH1V")) [lc "Good", lc "luck", lc "@george!"]
      = .sent (lc "C043NCYSH1V") (lc "Good luck @george!") := by
  constructor
  · have h := C3_command_parsing.1 (some (lc "C043NCYSH1V")) [] (lc "C123")
      [lc "Good", lc "luck", lc "@george!"] (by decide) (by decide) (by decide)
    rw [List.nil_append] at h
    rw [h]
    decide
  · have h := C3_command_parsing.2 (some (lc "C043NCYSH1V"))
      [lc "Good", lc "luck", lc "@george!"] (by decide)
    rw [h]
    decide

/-! ### Helper lemmas for the time-codec round trip -/

/-- Every valid parse lies in the strptime ranges: hour 1..12,
minute 0..59. -/
theorem parse12_bounds (s : List Char) (h m : Nat) (pm : Bool)
    (hp : parse12 s = some (h, m, pm)) : 1 ≤ h ∧ h ≤ 12 ∧ m ≤ 59 := by
  unfold parse12 at hp
  repeat' split at hp
  all_goals simp_all
  all_goals omega

set_option maxRecDepth 100000 in
/-- Enumeration: parsing the display string of each minute of the day
recovers that minute. -/
theorem display12_parses_back : ((List.range 1440).all
    (fun t => toMinuteOfDay (display12 t) == some t)) = true := by decide

set_option maxRecDepth 100000 in
/-- Enumeration: displaying a parsed AM value reproduces its normalized
string. -/
theorem display12_normalizes_am : ((List.range 720).all
    (fun k => display12 (minuteOfDay (k / 60 + 1) (k % 60) false)
        == normalize12 (k / 60 + 1) (k % 60) false)) = true := by decide

set_option maxRecDepth 100000 in
/-- Enumeration: displaying a parsed PM value reproduces its normalized
string. -/
theorem display12_normalizes_pm : ((List.range 720).all
    (fun k => display12 (minuteOfDay (k / 60 + 1) (k % 60) true)
        == normalize12 (k / 60 + 1) (k % 60) true)) = true := by decide

/-- C5: the time codec round-trips.  For every minute of the day `t`,
parsing the 12-hour display string of `t` with the strptime pattern of
`convert_to_24h_format` yields `t` back; and for every string the pattern
accepts, displaying the parsed value reproduces the string's normalized
form (zero-padded two-digit hour and minute, upper-case meridiem). -/
theorem C5_roundtrip :
    (∀ t : Nat, t < 1440 → toMinuteOfDay (display12 t) = some t)
    ∧ (∀ (s : List Char) (h m : Nat) (pm : Bool),
       parse12 s = some (h, m, pm) →
       display12 (minuteOfDay h m pm) = normalize12 h m pm) := by
  constructor
  · intro t ht
    have hall := List.all_eq_true.mp display12_parses_back
    exact beq_iff_eq.mp (hall t (List.mem_range.mpr ht))
  · intro s h m pm hp
    obtain ⟨h1, h2, hm⟩ := parse12_bounds s h m pm hp
    have hk : (h - 1) * 60 + m < 720 := by omega
    have hdiv : ((h - 1) * 60 + m) / 60 + 1 = h := by omega
    have hmod : ((h - 1) * 60 + m) % 60 = m := by omega
    cases pm with
    | false =>
      have hall := List.all_eq_true.mp display12_normalizes_am
      have hb := hall ((h - 1) * 60 + m) (List.mem_range.mpr hk)
      rw [hdiv, hmod] at hb
      exact beq_iff_eq.mp hb
    | true =>
      have hall := List.all_eq_true.mp display12_normalizes_pm
      have hb := hall ((h - 1) * 60 + m) (List.mem_range.mpr hk)
      rw [hdiv, hmod] at hb
      exact beq_iff_eq.mp hb

/-- Witness for C5: 09:00 AM is minute 540 and round-trips both ways. -/
theorem C5_roundtrip_witness :
    toMinuteOfDay (display12 540) = some 540
    ∧ display12 (minuteOfDay 9 30 false) = normalize12 9 30 false :=
  ⟨C5_roundtrip.1 540 (by decide),
   C5_roundtrip.2 (lc "9:30 AM") 9 30 false (by decide)⟩

/-- C4 (counterexample): the mention regex demands a character after the
handle (`(?=\s|\.|!|\/|\W)`), so the resolvable mention in `hi @alice` —
the spec's own example, with the handle at the end of the text — is not
substituted: the message is sent verbatim, with no warning either. -/
theorem C4_counterexample :
    dirAlice (lc "alice") = some (lc "U1")
    ∧ send_message dirAlice (lc "hi @alice") = (lc "hi @alice", [])
    ∧ (send_message dirAlice (lc "hi @alice")).1 ≠ lc "hi <@U1>" := by
  refine ⟨by decide, by decide, by decide⟩

/-- C4 (amended): substitution applies to an `@handle` mention only when a
non-word character follows the handle: such a mention resolving via the
directory becomes `<@id>`; a mention at the end of the text is left
literal with no warning; a followed-but-unresolved mention is left literal
and logs the "User not found" warning without aborting the send; `@here`
is replaced by `<!here>` whenever it is not itself captured and resolved
as the handle `here` — in particular always when at the end of the text,
and also (with a stray warning) when the directory misses `here`; but a
directory that resolves `here` turns a followed `@here` into a user
mention instead of the broadcast form. -/
theorem C4_amended_mentions :
    ∀ directory : List Char → Option (List Char),
      (directory (lc "alice") = some (lc "U1") →
         send_message directory (lc "hi @alice!") = (lc "hi <@U1>!", []))
      ∧ (directory (lc "alice") = some (lc "U1") →
         send_message directory (lc "hi @alice") = (lc "hi @alice", []))
      ∧ (directory (lc "bob") = none →
         send_message directory (lc "hi @bob!")
           = (lc "hi @bob!",
              [⟨lc "User not found",
                lc "Username @bob could not be resolved to a user ID."⟩]))
      ∧ send_message directory (lc "ping @here") = (lc "ping <!here>", [])
      ∧ (directory (lc "here") = none →
         send_message directory (lc "ping @here now")
           = (lc "ping <!here> now",
              [⟨lc "User not found",
                lc "Username @here could not be resolved to a user ID."⟩]))
      ∧ (directory (lc "here") = some (lc "U9") →
         send_message directory (lc "ping @here now")
           = (lc "ping <@U9> now", [])) := by
  refine fun directory => ⟨?_, ?_, ?_, ?_, ?_, ?_⟩
  · intro hdir
    unfold send_message
    rw [show findMentions (lc "hi @alice!") = [lc "alice"] from by decide]
    simp only [List.foldl_cons, List.foldl_nil, resolveStep, hdir]
    decide
  · intro hdir
    unfold send_message
    rw [show findMentions (lc "hi @alice") = [] from by decide]
    simp only [List.foldl_nil]
    decide
  · intro hdir
    unfold send_message
    rw [show findMentions (lc "hi @bob!") = [lc "bob"] from by decide]
    simp only [List.foldl_cons, List.foldl_nil, resolveStep, hdir]
    decide
  · unfold send_message
    rw [show findMentions (lc "ping @here") = [] from by decide]
    simp only [List.foldl_nil]
    decide
  · intro hdir
    unfold send_message
    rw [show findMentions (lc "ping @here now") = [lc "here"] from by decide]
    simp only [List.foldl_cons, List.foldl_nil, resolveStep, hdir]
    decide
  · intro hdir
    unfold send_message
    rw [show findMentions (lc "ping @here now") = [lc "here"] from by decide]
    simp only [List.foldl_cons, List.foldl_nil, resolveStep, hdir]
    decide

/-- Witness for C4 (amended): a concrete directory resolving only `alice`
(and one resolving only `here`) instantiate the resolved, missed and
broadcast cases. -/
theorem C4_amended_mentions_witness :
    send_message dirAlice (lc "hi @alice!") = (lc "hi <@U1>!", [])
    ∧ send_message dirAlice (lc "hi @bob!")
      = (lc "hi @bob!",
         [⟨lc "User not found",
           lc "Username @bob could not be resolved to a user ID."⟩])
    ∧ send_message dirAlice (lc "ping @here") = (lc "ping <!here>", [])
    ∧ send_message
        (fun u => if u = lc "here" then some (lc "U9") else none)
        (lc "ping @here now") = (lc "ping <@U9> now", []) :=
  ⟨(C4_amended_mentions dirAlice).1 (by decide),
   (C4_amended_mentions dirAlice).2.2.1 (by decide),
   (C4_amended_mentions dirAlice).2.2.2.1,
   (C4_amended_mentions
      (fun u => if u = lc "here" then some (lc "U9") else none)).2.2.2.2.2
     (by decide)⟩

end SlackSched
